import Mathlib

/-!
Shallow embedding of the `modemmonitor` program (src/main.rs).

The program fetches a cable modem's diagnostics page, sums the correctable
and uncorrectable error counters of the qualifying downstream-channel rows
(`get_counts`), compares them against thresholds, and — when a threshold is
reached — fans a notification out to every joined chat room and issues a
reboot POST to the modem (`app`).

Modelling conventions:
* Strings are handled as `List Char` where character-level work is needed;
  HTTP transport, the chat client library, and the file system are
  represented by explicit oracle records (`World`, `SetupEnv`) giving the
  outcome of each external call.
* Machine integers (`u64`) are `Nat`; a parse checks the `< 2 ^ 64` bound as
  Rust's `str::parse::<u64>` does, and the sums in `ErrorCount::from` reduce
  modulo `2 ^ 64` (release-profile wrapping addition).
* A `panic!`-style abort (the `unwrap` calls in `get_counts`) is modelled by
  `Option`: `none` means the process aborts.
-/

namespace ModemMonitor

/-- One tag of the separator regex `</?t[rd]>`: recognises a leading `<tr>`,
`<td>`, `</tr>` or `</td>` and returns the characters after it. -/
def matchTag : List Char → Option (List Char)
  | '<' :: '/' :: 't' :: c :: '>' :: rest =>
    if c = 'r' ∨ c = 'd' then some rest else none
  | '<' :: 't' :: c :: '>' :: rest =>
    if c = 'r' ∨ c = 'd' then some rest else none
  | _ => none

/-- One match of the full separator regex `</?t[rd]></?t[rd]>` (two adjacent
tags) at the head of the character list. -/
def sepMatch (l : List Char) : Option (List Char) :=
  (matchTag l).bind matchTag

/-- Fuel-driven scanner realising `Regex::split`: emit a field at every
leftmost non-overlapping separator match.  Every step consumes at least one
character, so fuel equal to the initial length is enough; the fuel-exhausted
arm is unreachable for such calls. -/
def sepSplitAux : Nat → List Char → List Char → List (List Char)
  | _, [], acc => [acc.reverse]
  | 0, rest, acc => [acc.reverse ++ rest]
  | fuel + 1, c :: rest, acc =>
    match sepMatch (c :: rest) with
    | some rest2 => acc.reverse :: sepSplitAux fuel rest2 []
    | none => sepSplitAux fuel rest (c :: acc)

/-- `sep.split(line)`: the field list of one line of the page. -/
def lineFields (l : List Char) : List (List Char) :=
  sepSplitAux l.length l []

/-- Numeric value of an ASCII digit, `none` for any other character. -/
def digitVal (c : Char) : Option Nat :=
  if '0' ≤ c ∧ c ≤ '9' then some (c.toNat - 48) else none

/-- Accumulate the value of a digit string; `none` on a non-digit. -/
def parseDigitsAux : List Char → Nat → Option Nat
  | [], acc => some acc
  | c :: rest, acc =>
    match digitVal c with
    | some d => parseDigitsAux rest (acc * 10 + d)
    | none => none

/-- Value of a non-empty digit string. -/
def parseDigits : List Char → Option Nat
  | [] => none
  | l => parseDigitsAux l 0

/-- Rust `str::parse::<u64>`: an optional leading plus sign, then one or more
ASCII digits, and the value must fit in 64 bits; anything else is an error. -/
def parseU64 (l : List Char) : Option Nat :=
  match parseDigits (match l with | '+' :: rest => rest | _ => l) with
  | some v => if v < 2 ^ 64 then some v else none
  | none => none

/-- The row-qualification test of `get_counts`: more than five fields, field 2
equal to `"Locked"` and field 3 equal to `"QAM256"` (0-based indices). -/
def qualifies (l : List Char) : Bool :=
  decide (5 < (lineFields l).length) &&
    decide ((lineFields l).getD 2 [] = "Locked".data) &&
    decide ((lineFields l).getD 3 [] = "QAM256".data)

/-- The field `k` places from the end of the line's field list: `fs[len - k]`
in the source. -/
def fieldFromEnd (l : List Char) (k : Nat) : List Char :=
  (lineFields l).getD ((lineFields l).length - k) []

/-- One line of the `filter_map` in `get_counts`.  `some none` means the line
is skipped, `some (some (a, b))` means a qualifying row contributing the two
parsed counters, and `none` models the `unwrap` panic on a qualifying row
whose numeric field does not parse. -/
def lineRow (l : List Char) : Option (Option (Nat × Nat)) :=
  if qualifies l then
    match parseU64 (fieldFromEnd l 3), parseU64 (fieldFromEnd l 2) with
    | some a, some b => some (some (a, b))
    | _, _ => none
  else
    some none

/-- Run `lineRow` over every line, keeping the qualifying rows' pairs and
propagating a panic. -/
def collectRows : List (List Char) → Option (List (Nat × Nat))
  | [] => some []
  | l :: ls =>
    match lineRow l, collectRows ls with
    | some none, r => r
    | some (some p), some ps => some (p :: ps)
    | some (some _), none => none
    | none, _ => none

/-- Rust `str::split('\n')` on the page body. -/
def splitLines : List Char → List (List Char)
  | [] => [[]]
  | c :: rest =>
    if c = '\n' then
      [] :: splitLines rest
    else
      match splitLines rest with
      | [] => [[c]]
      | f :: r => (c :: f) :: r

/-- Aggregate error counts, `ErrorCount` in the source. -/
structure ErrorCount where
  correctable : Nat
  uncorrectable : Nat
  deriving DecidableEq, Repr

/-- `get_counts` applied to the fetched page text (the HTTP transport sits
outside the model).  `none` models the process abort raised by the `unwrap`
calls; the two `u64` sums of `ErrorCount::from` wrap modulo `2 ^ 64`. -/
def get_counts (page : String) : Option ErrorCount :=
  (collectRows (splitLines page.data)).map fun rows =>
    { correctable := ((rows.map Prod.fst).sum) % 2 ^ 64
      uncorrectable := ((rows.map Prod.snd).sum) % 2 ^ 64 }

/-- Per the spec: a qualifying row's correctable-error count is its
third-from-last field parsed as a non-negative integer. -/
def cval (l : List Char) : Nat :=
  (parseU64 (fieldFromEnd l 3)).getD 0

/-- Per the spec: a qualifying row's uncorrectable-error count is its
second-from-last field parsed as a non-negative integer. -/
def uval (l : List Char) : Nat :=
  (parseU64 (fieldFromEnd l 2)).getD 0

/-- Stated from the spec's words for comparison with `get_counts`: the exact
mathematical sum, over the qualifying lines, of their correctable counts,
with no modular reduction. -/
def specCorrectableSum (page : String) : Nat :=
  (((splitLines page.data).filter qualifies).map cval).sum

/-- Stated from the spec's words: the exact sum of the qualifying lines'
uncorrectable counts, with no modular reduction. -/
def specUncorrectableSum (page : String) : Nat :=
  (((splitLines page.data).filter qualifies).map uval).sum

/-- Bounds-checked replay of `lineRow`: each slice index of the source
(`fs[2]`, `fs[3]`, `fs[l - 3]`, `fs[l - 2]`) becomes a `List.get?` in the same
short-circuit order, and the outermost `none` marks an out-of-bounds access
(a Rust index panic). -/
def lineRowChecked (l : List Char) : Option (Option (Option (Nat × Nat))) :=
  if 5 < (lineFields l).length then
    match (lineFields l).get? 2 with
    | none => none
    | some f2 =>
      if f2 = "Locked".data then
        match (lineFields l).get? 3 with
        | none => none
        | some f3 =>
          if f3 = "QAM256".data then
            match (lineFields l).get? ((lineFields l).length - 3),
                (lineFields l).get? ((lineFields l).length - 2) with
            | some fa, some fb =>
              some (match parseU64 fa, parseU64 fb with
                | some a, some b => some (some (a, b))
                | _, _ => none)
            | _, _ => none
          else some (some none)
      else some (some none)
  else some (some none)

/-- Command-line options relevant to the orchestration (`Opts` in the source,
with the two URLs abstracted away). -/
structure Opts where
  dry_run : Bool
  reset : Bool
  notify : Bool
  correctable_threshold : Nat
  uncorrectable_threshold : Nat
  deriving DecidableEq, Repr

/-- `Opts::message`. -/
def Opts.message (o : Opts) : String :=
  if o.dry_run then "would issue modem reboot"
  else "issuing modem reboot" ++ (if o.reset then " and reset" else "")

/-- `Opts::notification_message`. -/
def Opts.notification_message (o : Opts) (ct : ErrorCount) : String :=
  "Rebooting" ++ (if o.reset then " and resetting" else "") ++
    " modem shortly: found " ++ toString ct.correctable ++ " correctable, " ++
    toString ct.uncorrectable ++ " uncorrectable errors" ++
    (if o.dry_run then " (jk this is a dry run)" else "") ++ "."

/-- `Opts::reset_arg`. -/
def Opts.reset_arg (o : Opts) : String × String :=
  ("RestoreFactoryDefault", if o.reset then "1" else "0")

/-- The threshold decision of `app` (source lines 73-77, the single
evaluation point of spec section 4.2): act unless both counts are strictly
below their thresholds. -/
def exceeded (ct : ErrorCount) (o : Opts) : Bool :=
  !(decide (ct.correctable < o.correctable_threshold) &&
    decide (ct.uncorrectable < o.uncorrectable_threshold))

/-- The authenticated chat client, reduced to what `notifications` reads from
it: the joined room identifiers. -/
structure MatrixClient where
  joined_rooms : List String
  deriving DecidableEq, Repr

/-- Observable network actions of one run. -/
inductive Action where
  | send (room : String) (token : Nat) (body : String)
  | post (path : String) (form : List (String × String))
  deriving DecidableEq, Repr

/-- Whether an action is a chat send. -/
def Action.isSend : Action → Bool
  | Action.send _ _ _ => true
  | Action.post _ _ => false

/-- The idempotency token of a send (0 for a post). -/
def Action.tokenOf : Action → Nat
  | Action.send _ t _ => t
  | Action.post _ _ => 0

/-- Oracle for the run's external effects: the outcome of the concurrent
gather phase, the outcome of each room send, the stream of fresh idempotency
tokens (`Uuid::new_v4`, indexed by generation order), and the outcome of the
reboot POST. -/
structure World where
  fetch : Except String ErrorCount
  setup : Except String MatrixClient
  send_result : String → Except String Unit
  fresh_token : Nat → Nat
  post_result : Except String Unit

/-- The sends queued by `notifications`: one per joined room, in order, each
with the next fresh token. -/
def queueSends (w : World) (body : String) : Nat → List String → List Action
  | _, [] => []
  | i, id :: rest =>
    Action.send id (w.fresh_token i) body :: queueSends w body (i + 1) rest

/-- Result of draining the send futures (`while let Some(done) = msgs.next()
{ done? }`): the first failure, in the model's enumeration order. -/
def firstError (w : World) : List String → Except String Unit
  | [] => Except.ok ()
  | id :: rest =>
    match w.send_result id with
    | Except.error e => Except.error e
    | Except.ok _ => firstError w rest

/-- `notifications`: a no-op when the notify flag is off; otherwise one send
per joined room, each with a fresh token, and the first send failure as the
overall result. -/
def notifications (mc : MatrixClient) (body : String) (notify : Bool)
    (w : World) : List Action × Except String Unit :=
  if notify = false then ([], Except.ok ())
  else (queueSends w body 0 mc.joined_rooms, firstError w mc.joined_rooms)

/-- The orchestrator `app`, as the list of network actions performed and the
final result.  It mirrors the source: gather (`try_join!`) aborts on either
failure; below-threshold runs return immediately; the notification fan-out's
result is discarded (`let _ = join!`); a dry run stops before the POST. -/
def app (o : Opts) (w : World) : List Action × Except String Unit :=
  match w.fetch with
  | Except.error e => ([], Except.error e)
  | Except.ok ct =>
    match w.setup with
    | Except.error e => ([], Except.error e)
    | Except.ok mc =>
      if exceeded ct o then
        let nacts := (notifications mc (o.notification_message ct) o.notify w).1
        if o.dry_run then
          (nacts, Except.ok ())
        else
          (nacts ++
            [Action.post "goform/RgConfiguration.pl"
              [("Rebooting", "1"), o.reset_arg]],
            w.post_result)
      else
        ([], Except.ok ())

/-- Strip one trailing carriage return (the tail map of Rust `str::lines`). -/
def stripCR (l : List Char) : List Char :=
  if l.getLast? = some '\x0d' then l.dropLast else l

/-- Helper for `rustLines`: every piece except the last was followed by a
newline, so it loses a trailing carriage return; a trailing empty piece
(from a final newline) is dropped; a last piece without a newline is kept
verbatim. -/
def rustLinesAux : List (List Char) → List (List Char)
  | [] => []
  | [l] => if l = [] then [] else [l]
  | l :: rest => stripCR l :: rustLinesAux rest

/-- Rust `str::lines`. -/
def rustLines (s : String) : List (List Char) :=
  rustLinesAux (splitLines s.data)

/-- The credentials `matrix_setup` passes to `Client::login`, read from the
config file: line 1 username, line 2 password, optional lines 3 and 4. -/
structure LoginAttempt where
  username : List Char
  password : List Char
  device_id : Option (List Char)
  device_display_name : Option (List Char)
  deriving DecidableEq, Repr

/-- File-system state seen by `matrix_setup`: whether the store already holds
a logged-in session, whether the session marker file exists, and the
contents of the config file (`none` when the file is absent). -/
structure SetupEnv where
  logged_in : Bool
  session_file_exists : Bool
  config_file : Option String
  deriving DecidableEq

/-- Observable outcome of `matrix_setup`: which files were created and the
login attempted, if any. -/
structure SetupTrace where
  created_session_file : Bool
  created_config_file : Bool
  login : Option LoginAttempt
  deriving DecidableEq, Repr

/-- `matrix_setup` with the store opening and client construction abstracted
away.  `OpenOptions::new().create(true)` opens a missing file as empty and
creates it; `lines.next().unwrap_or("")` supplies the empty string for a
missing username or password line and `lines.next()` leaves the optional
device lines absent. -/
def matrix_setup (notify : Bool) (env : SetupEnv) : SetupTrace :=
  if notify = false then
    { created_session_file := false, created_config_file := false,
      login := none }
  else if env.logged_in then
    { created_session_file := !env.session_file_exists,
      created_config_file := false, login := none }
  else
    { created_session_file := !env.session_file_exists
      created_config_file := env.config_file.isNone
      login := some
        { username := (rustLines (env.config_file.getD "")).getD 0 []
          password := (rustLines (env.config_file.getD "")).getD 1 []
          device_id := (rustLines (env.config_file.getD "")).get? 2
          device_display_name := (rustLines (env.config_file.getD "")).get? 3 } }

/-- A downstream-channel table row with the given numeric field strings in
the two counter positions (7 fields; field 2 `"Locked"`, field 3
`"QAM256"`). -/
def rowLine (a b : String) : String :=
  "1<td><td>2<td><td>Locked<td><td>QAM256<td><td>" ++ a ++ "<td><td>" ++
    b ++ "<td><td>x"

/-- Two qualifying rows whose correctable counters sum to exactly `2 ^ 64`. -/
def c1cexPage : String :=
  rowLine "18446744073709551615" "1" ++ "\n" ++ rowLine "1" "2"

/-- Two qualifying rows (3 + 4 correctable, 1 + 2 uncorrectable) and one
noise line. -/
def c1wPage : String :=
  rowLine "3" "1" ++ "\n" ++ "noise" ++ "\n" ++ rowLine "4" "2"

/-- A qualifying row whose correctable counter is not a number. -/
def c8Page : String :=
  rowLine "bogus" "1"

/-- The source's default options: thresholds 100000 and 1000, notifications
on, no dry run, no reset. -/
def baseOpts : Opts :=
  { dry_run := false, reset := false, notify := true,
    correctable_threshold := 100000, uncorrectable_threshold := 1000 }

/-- A world whose gather phase succeeds with Scenario A's counts and whose
externals all succeed. -/
def c4World : World :=
  { fetch := Except.ok { correctable := 1500, uncorrectable := 50 }
    setup := Except.ok { joined_rooms := ["r1"] }
    send_result := fun _ => Except.ok ()
    fresh_token := fun i => i
    post_result := Except.ok () }

/-- A world with above-threshold counts whose every chat send fails. -/
def c3World : World :=
  { fetch := Except.ok { correctable := 250000, uncorrectable := 50 }
    setup := Except.ok { joined_rooms := ["r1"] }
    send_result := fun _ => Except.error "send failed"
    fresh_token := fun i => i
    post_result := Except.ok () }

/-- Options whose zero thresholds force action, with a reset requested and
notifications off. -/
def c5Opts : Opts :=
  { dry_run := false, reset := true, notify := false,
    correctable_threshold := 0, uncorrectable_threshold := 0 }

/-- Dry-run options with notifications still on (the `-N` flag) and zero
thresholds. -/
def c6Opts : Opts :=
  { dry_run := true, reset := false, notify := true,
    correctable_threshold := 0, uncorrectable_threshold := 0 }

/-- A world with two joined rooms, sequential fresh tokens, and successful
sends. -/
def c7World : World :=
  { fetch := Except.ok { correctable := 0, uncorrectable := 0 }
    setup := Except.ok { joined_rooms := ["a", "b"] }
    send_result := fun _ => Except.ok ()
    fresh_token := fun i => i
    post_result := Except.ok () }

/-- A two-room client. -/
def c7mc : MatrixClient :=
  { joined_rooms := ["a", "b"] }

/-- Setup environment with no logged-in session and no files at all. -/
def c10Env : SetupEnv :=
  { logged_in := false, session_file_exists := false, config_file := none }

theorem get?_eq_getD {α : Type} (xs : List α) (i : Nat) (d : α)
    (h : i < xs.length) : xs.get? i = some (xs.getD i d) := by
  induction xs generalizing i with
  | nil => simp at h
  | cons x xs ih =>
    cases i with
    | zero => rfl
    | succ n =>
      have hn : n < xs.length := by simpa using h
      simpa [List.get?, List.getD] using ih n hn

theorem collectRows_eq (ls : List (List Char)) (rows : List (Nat × Nat))
    (h : collectRows ls = some rows) :
    rows.map Prod.fst = (ls.filter qualifies).map cval ∧
    rows.map Prod.snd = (ls.filter qualifies).map uval := by
  induction ls generalizing rows with
  | nil =>
    simp [collectRows] at h
    simp [← h]
  | cons l ls ih =>
    by_cases hq : qualifies l = true
    · cases hpa : parseU64 (fieldFromEnd l 3) with
      | none =>
        have hl : lineRow l = none := by simp [lineRow, hq, hpa]
        simp [collectRows, hl] at h
      | some a =>
        cases hpb : parseU64 (fieldFromEnd l 2) with
        | none =>
          have hl : lineRow l = none := by simp [lineRow, hq, hpa, hpb]
          simp [collectRows, hl] at h
        | some b =>
          have hl : lineRow l = some (some (a, b)) := by
            simp [lineRow, hq, hpa, hpb]
          cases hc : collectRows ls with
          | none => simp [collectRows, hl, hc] at h
          | some ps =>
            have hrows : (a, b) :: ps = rows := by
              simpa [collectRows, hl, hc] using h
            obtain ⟨h1, h2⟩ := ih ps hc
            simp [← hrows, List.filter_cons, hq, cval, uval, hpa, hpb, h1, h2]
    · have hl : lineRow l = some none := by simp [lineRow, hq]
      have hc : collectRows ls = some rows := by
        simpa [collectRows, hl] using h
      obtain ⟨h1, h2⟩ := ih rows hc
      simp [List.filter_cons, hq, h1, h2]

theorem queueSends_isSend (w : World) (body : String) :
    ∀ (ids : List String) (i : Nat) (a : Action),
      a ∈ queueSends w body i ids → a.isSend = true := by
  intro ids
  induction ids with
  | nil => intro i a ha; simp [queueSends] at ha
  | cons id rest ih =>
    intro i a ha
    simp [queueSends] at ha
    rcases ha with h | h
    · rw [h]; rfl
    · exact ih (i + 1) a h

theorem notifications_actions_isSend (mc : MatrixClient) (body : String)
    (n : Bool) (w : World) (a : Action)
    (ha : a ∈ (notifications mc body n w).1) : a.isSend = true := by
  by_cases hn : n = false
  · simp [notifications, hn] at ha
  · simp [notifications, hn] at ha
    exact queueSends_isSend w body mc.joined_rooms 0 a ha

theorem queueSends_eq_zipWith (w : World) (body : String) :
    ∀ (ids : List String) (i : Nat),
      queueSends w body i ids =
        List.zipWith (fun k id => Action.send id (w.fresh_token k) body)
          (List.range' i ids.length) ids := by
  intro ids
  induction ids with
  | nil => intro i; rfl
  | cons id rest ih =>
    intro i
    simp [queueSends, List.range', ih (i + 1)]

theorem queueSends_map_tokenOf (w : World) (body : String) :
    ∀ (ids : List String) (i : Nat),
      (queueSends w body i ids).map Action.tokenOf =
        (List.range' i ids.length).map w.fresh_token := by
  intro ids
  induction ids with
  | nil => intro i; rfl
  | cons id rest ih =>
    intro i
    simp [queueSends, List.range', ih (i + 1), Action.tokenOf]

theorem firstError_ok_iff (w : World) (ids : List String) :
    firstError w ids = Except.ok () ↔
      ∀ id ∈ ids, w.send_result id = Except.ok () := by
  induction ids with
  | nil => simp [firstError]
  | cons id rest ih =>
    cases h : w.send_result id with
    | error e => simp [firstError, h]
    | ok u =>
      cases u
      simp [firstError, h, ih]

theorem exceeded_true_iff (ct : ErrorCount) (o : Opts) :
    exceeded ct o = true ↔
      o.correctable_threshold ≤ ct.correctable ∨
        o.uncorrectable_threshold ≤ ct.uncorrectable := by
  rcases Nat.lt_or_ge ct.correctable o.correctable_threshold with h1 | h1 <;>
    rcases Nat.lt_or_ge ct.uncorrectable o.uncorrectable_threshold with h2 | h2 <;>
      simp [exceeded, h1, h2]

/-- C2: `exceeded` is true iff either count has reached its threshold, and
false iff both counts are strictly below their respective thresholds. -/
theorem exceeded_iff (ct : ErrorCount) (o : Opts) :
    (exceeded ct o = true ↔
      o.correctable_threshold ≤ ct.correctable ∨
        o.uncorrectable_threshold ≤ ct.uncorrectable) ∧
    (exceeded ct o = false ↔
      ct.correctable < o.correctable_threshold ∧
        ct.uncorrectable < o.uncorrectable_threshold) := by
  refine ⟨exceeded_true_iff ct o, ?_⟩
  rw [Bool.eq_false_iff, Ne, exceeded_true_iff]
  omega

/-- C1 (amended): whenever `get_counts` returns an `ErrorCount` (no parse
abort), its fields are the qualifying rows' sums reduced modulo `2 ^ 64`;
non-qualifying lines contribute nothing. -/
theorem get_counts_eq_spec_sums (page : String) (c : ErrorCount)
    (h : get_counts page = some c) :
    c.correctable = specCorrectableSum page % 2 ^ 64 ∧
    c.uncorrectable = specUncorrectableSum page % 2 ^ 64 := by
  rw [get_counts] at h
  cases hc : collectRows (splitLines page.data) with
  | none => rw [hc] at h; simp at h
  | some rows =>
    rw [hc] at h
    simp only [Option.map_some'] at h
    obtain ⟨h1, h2⟩ := collectRows_eq _ rows hc
    have hce := Option.some.inj h
    constructor
    · rw [← hce]
      simp [specCorrectableSum, h1]
    · rw [← hce]
      simp [specUncorrectableSum, h2]

/-- C1 witness: a page with two qualifying rows (3 + 4 correctable, 1 + 2
uncorrectable) and a noise line. -/
theorem get_counts_eq_spec_sums_witness :
    (7 : Nat) = specCorrectableSum c1wPage % 2 ^ 64 ∧
    (3 : Nat) = specUncorrectableSum c1wPage % 2 ^ 64 :=
  get_counts_eq_spec_sums c1wPage
    { correctable := 7, uncorrectable := 3 } rfl

/-- C1 counterexample: on a page whose qualifying correctable counters sum to
`2 ^ 64`, `get_counts` returns the wrapped value `0`, not the sum demanded by
the claim. -/
theorem get_counts_overflow_cex :
    get_counts c1cexPage = some { correctable := 0, uncorrectable := 3 } ∧
    specCorrectableSum c1cexPage = 2 ^ 64 ∧
    (get_counts c1cexPage).map ErrorCount.correctable ≠
      some (specCorrectableSum c1cexPage) := by
  refine ⟨rfl, rfl, ?_⟩
  intro h
  rw [show get_counts c1cexPage =
        some { correctable := 0, uncorrectable := 3 } from rfl,
    show specCorrectableSum c1cexPage = 2 ^ 64 from rfl] at h
  simp at h

/-- C8: a page with a qualifying row whose correctable field is not a number
reaches the `unwrap` abort: `get_counts` yields no value at all (in the
model, `none`) rather than a recoverable parse error. -/
theorem get_counts_aborts_on_bad_row :
    qualifies c8Page.data = true ∧ get_counts c8Page = none :=
  ⟨rfl, rfl⟩

/-- C9: the slice accesses of `get_counts` are always in bounds: the
bounds-checked replay of the row extraction never reports an out-of-bounds
access and agrees with the unchecked version on every line. -/
theorem lineRow_accesses_in_bounds (l : List Char) :
    lineRowChecked l = some (lineRow l) := by
  by_cases h5 : 5 < (lineFields l).length
  · obtain ⟨f2, hf2⟩ : ∃ x, (lineFields l).get? 2 = some x :=
      ⟨_, get?_eq_getD _ 2 [] (by omega)⟩
    obtain ⟨f3, hf3⟩ : ∃ x, (lineFields l).get? 3 = some x :=
      ⟨_, get?_eq_getD _ 3 [] (by omega)⟩
    obtain ⟨fa, hfa⟩ :
        ∃ x, (lineFields l).get? ((lineFields l).length - 3) = some x :=
      ⟨_, get?_eq_getD _ _ [] (by omega)⟩
    obtain ⟨fb, hfb⟩ :
        ∃ x, (lineFields l).get? ((lineFields l).length - 2) = some x :=
      ⟨_, get?_eq_getD _ _ [] (by omega)⟩
    have hgd2 : (lineFields l).getD 2 [] = f2 :=
      Option.some.inj ((get?_eq_getD _ 2 [] (by omega)).symm.trans hf2)
    have hgd3 : (lineFields l).getD 3 [] = f3 :=
      Option.some.inj ((get?_eq_getD _ 3 [] (by omega)).symm.trans hf3)
    have hgda : (lineFields l).getD ((lineFields l).length - 3) [] = fa :=
      Option.some.inj ((get?_eq_getD _ _ [] (by omega)).symm.trans hfa)
    have hgdb : (lineFields l).getD ((lineFields l).length - 2) [] = fb :=
      Option.some.inj ((get?_eq_getD _ _ [] (by omega)).symm.trans hfb)
    unfold lineRowChecked lineRow
    rw [if_pos h5]
    simp only [hf2, hf3, hfa, hfb, qualifies, fieldFromEnd, hgd2, hgd3,
      hgda, hgdb]
    by_cases hL : f2 = "Locked".data
    · by_cases hQ : f3 = "QAM256".data
      · simp [hL, hQ, h5]
      · simp [hL, hQ, h5]
    · simp [hL]
  · have hqual : qualifies l = false := by simp [qualifies, h5]
    unfold lineRowChecked lineRow
    rw [if_neg h5, hqual]
    rfl

/-- C4: when the fetched counts are strictly below both thresholds, the run
performs no network action at all and ends successfully. -/
theorem app_below_thresholds_no_action (o : Opts) (w : World)
    (ct : ErrorCount) (mc : MatrixClient) (hf : w.fetch = Except.ok ct)
    (hs : w.setup = Except.ok mc)
    (h1 : ct.correctable < o.correctable_threshold)
    (h2 : ct.uncorrectable < o.uncorrectable_threshold) :
    app o w = ([], Except.ok ()) := by
  have hex : exceeded ct o = false := by
    unfold exceeded
    rw [decide_eq_true h1, decide_eq_true h2]
    rfl
  simp [app, hf, hs, hex]

/-- C4 witness: Scenario A (counts 1500/50 against thresholds 100000/1000). -/
theorem app_below_thresholds_no_action_witness :
    app baseOpts c4World = ([], Except.ok ()) :=
  app_below_thresholds_no_action baseOpts c4World
    { correctable := 1500, uncorrectable := 50 } { joined_rooms := ["r1"] }
    rfl rfl (by decide) (by decide)

/-- C3 counterexample: in a run whose every chat send fails, `app` still
succeeds and still issues the reboot POST — the failure is not fatal and
remediation is not withheld. -/
theorem app_send_failure_cex :
    c3World.send_result "r1" = Except.error "send failed" ∧
    (app baseOpts c3World).2 = Except.ok () ∧
    (app baseOpts c3World).1 =
      [Action.send "r1" 0
          (baseOpts.notification_message
            { correctable := 250000, uncorrectable := 50 }),
        Action.post "goform/RgConfiguration.pl"
          [("Rebooting", "1"), ("RestoreFactoryDefault", "0")]] :=
  ⟨rfl, rfl, rfl⟩

/-- C3 (amended): the fan-out's result is discarded (`let _ = join!`), so
after the Notifying+Waiting phase the run always continues to Acting: the
POST is issued and the run's result is exactly the POST's result, whatever
the send outcomes were. -/
theorem app_ignores_send_failure (o : Opts) (w : World) (ct : ErrorCount)
    (mc : MatrixClient) (hf : w.fetch = Except.ok ct)
    (hs : w.setup = Except.ok mc) (hex : exceeded ct o = true)
    (hd : o.dry_run = false) :
    (app o w).1 =
      (notifications mc (o.notification_message ct) o.notify w).1 ++
        [Action.post "goform/RgConfiguration.pl"
          [("Rebooting", "1"), o.reset_arg]] ∧
    (app o w).2 = w.post_result := by
  simp [app, hf, hs, hex, hd]

/-- C3 witness: the amended statement instantiated at the all-sends-fail
world. -/
theorem app_ignores_send_failure_witness :
    (app baseOpts c3World).1 =
      (notifications { joined_rooms := ["r1"] }
          (baseOpts.notification_message
            { correctable := 250000, uncorrectable := 50 })
          baseOpts.notify c3World).1 ++
        [Action.post "goform/RgConfiguration.pl"
          [("Rebooting", "1"), baseOpts.reset_arg]] ∧
    (app baseOpts c3World).2 = c3World.post_result :=
  app_ignores_send_failure baseOpts c3World
    { correctable := 250000, uncorrectable := 50 } { joined_rooms := ["r1"] }
    rfl rfl rfl rfl

/-- C5: whenever remediation is actually issued (thresholds exceeded, not a
dry run), the POST goes to `goform/RgConfiguration.pl` with form fields
`Rebooting=1` and `RestoreFactoryDefault=1` when reset is set, `=0`
otherwise. -/
theorem app_post_form (o : Opts) (w : World) (ct : ErrorCount)
    (mc : MatrixClient) (hf : w.fetch = Except.ok ct)
    (hs : w.setup = Except.ok mc) (hex : exceeded ct o = true)
    (hd : o.dry_run = false) :
    Action.post "goform/RgConfiguration.pl"
      [("Rebooting", "1"),
        ("RestoreFactoryDefault", if o.reset then "1" else "0")] ∈
      (app o w).1 := by
  simp [app, hf, hs, hex, hd, Opts.reset_arg]

/-- C5 witness: reset requested, zero thresholds. -/
theorem app_post_form_witness :
    Action.post "goform/RgConfiguration.pl"
      [("Rebooting", "1"), ("RestoreFactoryDefault", "1")] ∈
      (app c5Opts c7World).1 :=
  app_post_form c5Opts c7World { correctable := 0, uncorrectable := 0 }
    { joined_rooms := ["a", "b"] } rfl rfl rfl rfl

/-- C6: with `dry_run` set, no POST is ever among the run's actions (they are
all chat sends), and any run whose gather phase succeeds ends successfully,
whatever the notification outcomes. -/
theorem app_dry_run_no_post (o : Opts) (w : World) (hd : o.dry_run = true) :
    (∀ a ∈ (app o w).1, a.isSend = true) ∧
    (∀ ct mc, w.fetch = Except.ok ct → w.setup = Except.ok mc →
      (app o w).2 = Except.ok ()) := by
  constructor
  · intro a ha
    cases hf : w.fetch with
    | error e => simp [app, hf] at ha
    | ok ct =>
      cases hs : w.setup with
      | error e => simp [app, hf, hs] at ha
      | ok mc =>
        by_cases hex : exceeded ct o = true
        · simp [app, hf, hs, hex, hd] at ha
          exact notifications_actions_isSend mc _ o.notify w a ha
        · simp [app, hf, hs, hex] at ha
  · intro ct mc hf hs
    by_cases hex : exceeded ct o = true <;> simp [app, hf, hs, hex, hd]

/-- C6 witness: dry run with notifications on ends successfully. -/
theorem app_dry_run_no_post_witness :
    (app c6Opts c7World).2 = Except.ok () :=
  (app_dry_run_no_post c6Opts c7World rfl).2
    { correctable := 0, uncorrectable := 0 } { joined_rooms := ["a", "b"] }
    rfl rfl

/-- C7: with the flag off the fan-out is a successful no-op; with it on it
issues exactly one send per joined room (in enumeration order, with the
successive fresh tokens), succeeds iff every send succeeds, and distinct
token draws give the sends pairwise distinct idempotency tokens. -/
theorem notifications_spec (mc : MatrixClient) (body : String) (w : World) :
    notifications mc body false w = ([], Except.ok ()) ∧
    (notifications mc body true w).1 =
      List.zipWith (fun k id => Action.send id (w.fresh_token k) body)
        (List.range mc.joined_rooms.length) mc.joined_rooms ∧
    ((notifications mc body true w).2 = Except.ok () ↔
      ∀ id ∈ mc.joined_rooms, w.send_result id = Except.ok ()) ∧
    (Function.Injective w.fresh_token →
      ((notifications mc body true w).1.map Action.tokenOf).Nodup) := by
  refine ⟨rfl, ?_, ?_, ?_⟩
  · simp [notifications, queueSends_eq_zipWith, List.range_eq_range']
  · simpa [notifications] using firstError_ok_iff w mc.joined_rooms
  · intro hinj
    simp only [notifications, Bool.true_eq_false, if_false]
    rw [queueSends_map_tokenOf]
    exact (List.nodup_range' 0 mc.joined_rooms.length).map hinj

/-- C7 witness: two rooms with the identity token stream give distinct
tokens. -/
theorem notifications_spec_witness :
    ((notifications c7mc "hello" true c7World).1.map Action.tokenOf).Nodup :=
  (notifications_spec c7mc "hello" c7World).2.2.2 (fun _ _ h => h)

/-- C10: with notifications on and no logged-in session, `matrix_setup`
always reaches the login attempt: the config file is created when absent, a
missing file yields empty credentials, and a file of at most one line yields
an empty password and absent optional fields. -/
theorem matrix_setup_defaults (env : SetupEnv) (h : env.logged_in = false) :
    (matrix_setup true env).login.isSome = true ∧
    (matrix_setup true env).created_config_file = env.config_file.isNone ∧
    (env.config_file = none →
      (matrix_setup true env).login =
        some { username := [], password := [], device_id := none,
               device_display_name := none }) ∧
    (∀ s, env.config_file = some s → (rustLines s).length ≤ 1 →
      ∃ u, (matrix_setup true env).login =
        some { username := u, password := [], device_id := none,
               device_display_name := none }) := by
  refine ⟨?_, ?_, ?_, ?_⟩
  · simp [matrix_setup, h]
  · simp [matrix_setup, h]
  · intro hc
    simp [matrix_setup, h, hc, show rustLines "" = [] from rfl]
  · intro s hc hlen
    refine ⟨(rustLines s).getD 0 [], ?_⟩
    simp [matrix_setup, h, hc]
    refine ⟨?_, by omega, by omega⟩
    rw [List.getElem?_eq_none (by omega : (rustLines s).length ≤ 1)]
    rfl

/-- C10 witness: no files at all gives empty credentials. -/
theorem matrix_setup_defaults_witness :
    (matrix_setup true c10Env).login =
      some { username := [], password := [], device_id := none,
             device_display_name := none } :=
  (matrix_setup_defaults c10Env rfl).2.2.1 rfl

end ModemMonitor
